import Mathlib

/-!
# Verification of `khoutsider.py`

A shallow embedding of the album-downloader `src/khoutsider.py` and proofs
of the specification's claims about it.

Modelling conventions:
* Python exceptions become the inductive `PyExc`; fallible code returns
  `Except PyExc α`.
* HTML documents are abstracted to the attributes the program reads
  (`AlbumDoc`, candidate href lists, info-paragraph text).
* The network and filesystem are parameters: each fetch's outcome and each
  response's chunk stream are supplied by an environment value.
* `asyncio` cooperative scheduling is modelled by giving each track task a
  completion time; `asyncio.TaskGroup` join semantics (a failing child task
  aborts the group, cancelling children that have not yet finished) is the
  function `runTaskGroup`.
-/

namespace KHOutsider

/-- Model of the Python exceptions the program raises or handles.
`clientError` stands for `aiohttp.ClientError`, `khOutsiderError` for the
module's own `KHOutsiderError`, `exceptionGroup` for
`ExceptionGroup`/`BaseExceptionGroup`. -/
inductive PyExc where
  | clientError (msg : String)
  | khOutsiderError (msg : String)
  | valueError (msg : String)
  | attributeError (msg : String)
  | indexError (msg : String)
  | osError (msg : String)
  | exceptionGroup (excs : List PyExc)
  deriving Repr

/-- Splitting a character list on a (non-empty) separator occurrence by
occurrence; `fuel` bounds the recursion and is always instantiated with
the list's length, which suffices. Structural recursion keeps the
definition kernel-reducible. -/
def splitFuel (sep : List Char) : Nat → List Char → List Char → List (List Char)
  | 0, cs, acc => [acc.reverse ++ cs]
  | fuel + 1, cs, acc =>
    match cs with
    | [] => [acc.reverse]
    | c :: rest =>
      if sep.isPrefixOf (c :: rest) then
        acc.reverse :: splitFuel sep fuel (List.drop sep.length (c :: rest)) []
      else
        splitFuel sep fuel rest (c :: acc)

/-- Python `s.split(sep)` for a non-empty separator. -/
def pySplit (s sep : String) : List String :=
  (splitFuel sep.data s.data.length s.data []).map (fun cs => String.mk cs)

/-- Python `sep.join(parts)`. -/
def joinSep (sep : String) : List String → String
  | [] => ""
  | [x] => x
  | x :: y :: rest => x ++ sep ++ joinSep sep (y :: rest)

/-- Python `needle in hay` for strings: the needle occurs iff splitting on
it produces more than one piece. -/
def pyContains (hay needle : String) : Bool :=
  decide (1 < (pySplit hay needle).length)

/-- Python `y[y.rindex(".") + 1 :]`: the substring after the last `.`;
`none` models `rindex` raising `ValueError` when no `.` is present. -/
def extAfterLastDot (y : String) : Option String :=
  let parts := pySplit y "."
  if parts.length ≤ 1 then none else parts.getLast?

/-- Model of `urllib.parse.unquote` restricted to ASCII percent-escapes:
each `%XX` hex escape is decoded to the character with that code. -/
def unquoteAux : List Char → List Char
  | [] => []
  | '%' :: a :: b :: rest =>
    match hexDigit a, hexDigit b with
    | true, true =>
      Char.ofNat (16 * hexVal a + hexVal b) :: unquoteAux rest
    | _, _ => '%' :: unquoteAux (a :: b :: rest)
  | c :: rest => c :: unquoteAux rest
where
  /-- Whether a character is a hexadecimal digit. -/
  hexDigit (c : Char) : Bool :=
    c.isDigit || ('a' ≤ c && c ≤ 'f') || ('A' ≤ c && c ≤ 'F')
  /-- Numeric value of a hex digit. -/
  hexVal (c : Char) : Nat :=
    if c.isDigit then c.toNat - '0'.toNat
    else if 'a' ≤ c ∧ c ≤ 'f' then c.toNat - 'a'.toNat + 10
    else c.toNat - 'A'.toNat + 10

/-- Model of `urllib.parse.unquote` (ASCII fragment). -/
def unquote (s : String) : String := ⟨unquoteAux s.data⟩

/-- Model of `urllib.parse.urljoin` for the fragment this program relies on:
an absolute `rel` (one containing `://`) is returned unchanged, otherwise
`rel` is appended to `base` with its final path segment dropped. Dot-segment
normalisation and leading-slash references are outside the modelled
fragment; the program's pages use plain relative file names or absolute
URLs. -/
def urljoin (base rel : String) : String :=
  if 1 < (pySplit rel "://").length then rel
  else joinSep "/" ((pySplit base "/").dropLast) ++ "/" ++ rel

/-- Python `dict` insertion on an association list: an existing key's value
is overwritten in place, a new key is appended. -/
def dictInsert : List (String × String) → String → String → List (String × String)
  | [], k, v => [(k, v)]
  | (k0, v0) :: rest, k, v =>
    if k0 = k then (k0, v) :: rest else (k0, v0) :: dictInsert rest k v

/-- Python `dict` lookup on an association list. -/
def dictGet : List (String × String) → String → Option String
  | [], _ => none
  | (k0, v0) :: rest, k => if k0 = k then some v0 else dictGet rest k

/-- One step of the dict comprehension in `get_song_link`: slice the
extension of one candidate href (`ValueError` from `rindex` when it has no
`.`) and store the raw href under it. -/
def audioLinkStep (m : List (String × String)) (y : String) :
    Except PyExc (List (String × String)) :=
  match extAfterLastDot y with
  | none => .error (.valueError "substring not found")
  | some ext => .ok (dictInsert m ext y)

/-- The dict comprehension of `get_song_link`:
`{y[y.rindex(".") + 1 :]: y for y in hrefs}`. Candidates are consumed in
order; the first href without a `.` raises `ValueError` (from `rindex`)
before the dict is completed; a later duplicate extension overwrites the
earlier entry. Values are the hrefs exactly as found on the page. -/
def buildAudioLinks (hrefs : List String) : Except PyExc (List (String × String)) :=
  hrefs.foldlM audioLinkStep []

/-- Model of `get_song_link(download_doc, prefer_flac)`: `hrefs` are the `href`
attributes of the parents of the `songDownloadLink` elements, in document
order. Returns the chosen (still relative) href, or the `ValueError` the
Python function raises. -/
def get_song_link (hrefs : List String) (prefer_flac : Bool) : Except PyExc String := do
  let audio_links ← buildAudioLinks hrefs
  match prefer_flac, dictGet audio_links "flac" with
  | true, some l => pure l
  | _, _ =>
    match dictGet audio_links "mp3" with
    | some l => pure l
    | none => Except.error (.valueError "No song links found in page.")

/-- An HTTP response as `download_file` consumes it: the
`content-disposition` header when present, and the body as the stream of
chunks that `response.content.iter_chunked` yields. An `.error` entry
models the stream failing at that point (a transport error while
receiving, or an `OSError` from `file.write` on that chunk). -/
structure Response where
  contentDisposition : Option String
  chunks : List (Except PyExc Nat)

/-- Filename resolution in `download_file`: with a `content-disposition`
header, `unquote(header.split("filename=")[1])` (an `IndexError` when the
header has no `filename=` parameter); otherwise
`unquote(url.split("/")[-1])`. -/
def filenameOf (url : String) (resp : Response) : Except PyExc String :=
  match resp.contentDisposition with
  | some header =>
    match (pySplit header "filename=").get? 1 with
    | some f => .ok (unquote f)
    | none => .error (.indexError "list index out of range")
  | none => .ok (unquote ((pySplit url "/").getLastD url))

/-- The chunk-writing loop of `download_file`: returns the chunks written
into the file before the stream ended or failed, and the loop's outcome. -/
def streamChunks : List (Except PyExc Nat) → List Nat × Except PyExc Unit
  | [] => ([], .ok ())
  | .ok c :: rest =>
    let r := streamChunks rest
    (c :: r.1, r.2)
  | .error e :: _ => ([], .error e)

/-- Outcome of one `download_file` call. `file` is the file the call left
in the sink (name and written chunks), `none` when no file was created.
`handleClosed` records whether the write handle (when one was opened) was
closed by the time the call exited. -/
structure DownloadFileResult where
  file : Option (String × List Nat)
  handleClosed : Bool
  result : Except PyExc Unit

/-- Model of `download_file(url, session, output)`. `openExc` is the `OSError`
raised by `output.open(filename)` when the open itself fails (then no file
is created). Once `open(..., "wb")` succeeds the file exists; the `with`
statement closes the handle on every exit path; the written prefix is NOT
deleted when the stream fails — the error simply propagates. -/
def download_file (url : String) (resp : Response) (openExc : Option PyExc) :
    DownloadFileResult :=
  match filenameOf url resp with
  | .error e => ⟨none, true, .error e⟩
  | .ok filename =>
    match openExc with
    | some e => ⟨none, true, .error e⟩
    | none =>
      let s := streamChunks resp.chunks
      ⟨some (filename, s.1), true, s.2⟩

/-- The environment one track's pipeline runs against: the outcome of
fetching its download page (`.ok hrefs` giving the candidate
`songDownloadLink`-parent hrefs in document order, or the fetch's
exception), the response served for a given audio URL, the result of
`output.open` (an `OSError`, or `none` for success), and the task's
completion time in the cooperative schedule. -/
structure TrackEnv where
  pageFetch : Except PyExc (List String)
  resp : String → Response
  openExc : Option PyExc
  time : Nat

/-- Outcome of one `process_download_page` task: the file it left in the
sink, if any, and its success or exception. -/
structure TrackRunResult where
  file : Option (String × List Nat)
  result : Except PyExc Unit

/-- Model of `process_download_page(url, session, prefer_flac, output)`: fetch the
download page, choose the song link (`get_song_link`, whose `ValueError`
is wrapped as `KHOutsiderError("Could not find song links on {url}")`),
resolve it against the page URL, and download it. -/
def process_download_page (url : String) (env : TrackEnv) (prefer_flac : Bool) :
    TrackRunResult :=
  match env.pageFetch with
  | .error e => ⟨none, .error e⟩
  | .ok hrefs =>
    match get_song_link hrefs prefer_flac with
    | .error (.valueError _) =>
      ⟨none, .error (.khOutsiderError ("Could not find song links on " ++ url))⟩
    | .error e => ⟨none, .error e⟩
    | .ok link =>
      let audio_link := urljoin url link
      let d := download_file audio_link (env.resp audio_link) env.openExc
      ⟨d.file, d.result⟩

/-- Decimal value of a non-empty all-digit character list. -/
def digitsValAux : List Char → Nat → Option Nat
  | [], acc => some acc
  | c :: rest, acc =>
    if c.isDigit then digitsValAux rest (acc * 10 + (c.toNat - 48)) else none

/-- Decimal value of a character list; `none` when empty or non-digit. -/
def digitsVal : List Char → Option Nat
  | [] => none
  | cs => digitsValAux cs 0

/-- Whitespace stripping, as Python `str.strip()` with no argument. -/
def stripChars (cs : List Char) : List Char :=
  ((cs.dropWhile Char.isWhitespace).reverse.dropWhile Char.isWhitespace).reverse

/-- Python `int(s)` on a string: strip surrounding whitespace, parse an
optionally signed decimal integer, `ValueError` otherwise. -/
def pyInt (s : String) : Except PyExc Int :=
  let t := stripChars s.data
  let parsed : Option Int :=
    match t with
    | '-' :: rest => (digitsVal rest).map (fun n => -(n : Int))
    | '+' :: rest => (digitsVal rest).map (fun n => (n : Int))
    | _ => (digitsVal t).map (fun n => (n : Int))
  match parsed with
  | some n => .ok n
  | none => .error (.valueError ("invalid literal for int: " ++ s))

/-- Model of `get_track_count(album_doc)`. `infoParagraph` is the text content of
the first `p[@align='left']` element, `none` when the document has no such
element. When it is `none`, `album_doc.find(...)` returns `None` in
Python, so `.text_content()` raises `AttributeError` — which the
`except IndexError` clause does NOT catch, so it propagates (the
`raise ValueError("No info paragraph found in page.")` arm is dead code).
Otherwise the first line containing "Number of Files" is parsed as
`int(line.split(":")[-1])`. -/
def get_track_count (infoParagraph : Option String) : Except PyExc Int :=
  let inner : Except PyExc (List String) :=
    match infoParagraph with
    | none =>
      .error (.attributeError "NoneType object has no attribute text_content")
    | some t => .ok (pySplit t "\n")
  let handled : Except PyExc (List String) :=
    match inner with
    | .error (.indexError _) => .error (.valueError "No info paragraph found in page.")
    | x => x
  match handled with
  | .error e => .error e
  | .ok lines =>
    match lines.find? (fun l => pyContains l "Number of Files") with
    | some line => pyInt ((pySplit line ":").getLastD line)
    | none => .error (.valueError "Info Paragraph did not contain number of files.")

/-- One row of the tracklist (a `playlistDownloadSong` element): the
`href` attributes of its anchor descendants, in document order. -/
structure TrackRow where
  anchors : List String
  deriving Repr, DecidableEq

/-- An album tracklist document, abstracted to the attributes
`download_album` reads: the first `h2` text (`findtext(".//h2")`), the
text content of the first `p[@align='left']` element, and the
`playlistDownloadSong` rows. -/
structure AlbumDoc where
  h2 : Option String
  infoParagraph : Option String
  trackRows : List TrackRow

/-- The environment one album's run observes: the outcome of fetching and
parsing its tracklist page, and the per-track-page-URL environment. -/
structure AlbumEnv where
  albumFetch : Except PyExc AlbumDoc
  track : String → TrackEnv

/-- Model of `download_page_url.find("a").get("href")`, resolved with
`urljoin(url, ...)`: the FIRST anchor of the row, in document order.
A row with no anchor makes `find("a")` return `None`, so `.get` raises
`AttributeError`. -/
def trackUrlOfRow (albumUrl : String) (row : TrackRow) : Except PyExc String :=
  match row.anchors.head? with
  | none => .error (.attributeError "NoneType object has no attribute get")
  | some href => .ok (urljoin albumUrl href)

/-- The track URLs of all rows, resolved in order; fails at the first row
without an anchor. -/
def allTrackUrls (albumUrl : String) : List TrackRow → Except PyExc (List String)
  | [] => .ok []
  | row :: rest => do
    let u ← trackUrlOfRow albumUrl row
    let us ← allTrackUrls albumUrl rest
    pure (u :: us)

/-- One task of the album's `asyncio.TaskGroup`: its track-page URL, its
completion (or failure) time in the cooperative schedule, and the result
its pipeline would produce if run to completion. -/
structure TaskSpec where
  url : String
  time : Nat
  run : TrackRunResult

/-- Whether a pipeline outcome is a failure. -/
def isFail : Except PyExc Unit → Bool
  | .error _ => true
  | .ok _ => false

/-- The time at which the first failing task of the group fails, if any
task fails. -/
def firstFailTime (ts : List TaskSpec) : Option Nat :=
  (ts.filterMap (fun t => if isFail t.run.result then some t.time else none)).min?

/-- The join result of the album's `asyncio.TaskGroup`. -/
structure GroupResult where
  completed : List TaskSpec
  cancelled : List TaskSpec
  files : List (String × List Nat)
  excs : List PyExc

/-- Model of the `asyncio.TaskGroup` join semantics over the track tasks: if no task
fails, all run to completion and the group exits normally. If some task
fails, the group cancels the children that have not yet finished when the
first failure occurs: tasks finishing no later than the first failure time
record their own outcome, later ones receive `CancelledError` instead.
The group re-raises the completed tasks' exceptions as one
`ExceptionGroup` (cancellations are consumed, not reported); cancelled
tasks contribute no committed file of their own (any partial write they
leave is removed together with the album directory, since a failure is
present whenever a cancellation is). -/
def runTaskGroup (ts : List TaskSpec) : GroupResult :=
  match firstFailTime ts with
  | none => ⟨ts, [], ts.filterMap (fun t => t.run.file), []⟩
  | some t0 =>
    let completed := ts.filter (fun t => decide (t.time ≤ t0))
    ⟨completed,
      ts.filter (fun t => decide (t0 < t.time)),
      completed.filterMap (fun t => t.run.file),
      completed.filterMap (fun t =>
        match t.run.result with
        | .error e => some e
        | .ok _ => none)⟩

/-- The tasks `download_album` creates, one per extracted track URL. -/
def mkTasks (prefer_flac : Bool) (env : AlbumEnv) (urls : List String) :
    List TaskSpec :=
  urls.map (fun u =>
    ⟨u, (env.track u).time, process_download_page u (env.track u) prefer_flac⟩)

/-- The class matched by
`err.split((aiohttp.ClientError, KHOutsiderError))` — the failures the
album-level handler treats as expected and merely logs. -/
def isExpectedExc : PyExc → Bool
  | .clientError _ => true
  | .khOutsiderError _ => true
  | _ => false

/-- Result of one `download_album` run. `dir` is the album directory's
final state (`none`: absent — never created or removed again — `some fs`:
committed with files `fs`); `result` is the call's outcome (`.ok ()` for a
normal return); `completed`/`cancelled` are the track URLs whose tasks ran
to completion / were cancelled; `logged` are the expected failures the
handler logged individually. -/
structure AlbumRunResult where
  dir : Option (List (String × List Nat))
  result : Except PyExc Unit
  completed : List String
  cancelled : List String
  logged : List PyExc

/-- The part of `download_album` from the `async with output, TaskGroup`
statement on, reached once the tracklist page is parsed, the album name
found and the advisory track count handled. The `DirectoryOutput` sink is
entered (the directory now exists) and must be removed by its `__aexit__`
whenever the body or the group raises. An empty tracklist raises
`KHOutsiderError` in the body; a row without an anchor raises
`AttributeError` in the body while the tasks are being created (the group
then cancels the created tasks and re-raises it, and the handler's split
leaves it in the unexpected remainder). Otherwise the group joins the
tasks, the sink commits iff the group raised nothing, and the handler
logs the expected failures and re-raises the unexpected remainder. -/
def download_album_with_sink (url : String) (prefer_flac : Bool) (env : AlbumEnv)
    (doc : AlbumDoc) : AlbumRunResult :=
  if doc.trackRows.isEmpty then
    ⟨none, .ok (), [], [], [.khOutsiderError ("No songs found on " ++ url)]⟩
  else
    match allTrackUrls url doc.trackRows with
    | .error e => ⟨none, .error (.exceptionGroup [e]), [], [], []⟩
    | .ok urls =>
      let g := runTaskGroup (mkTasks prefer_flac env urls)
      if g.excs.isEmpty then
        ⟨some g.files, .ok (), g.completed.map (fun t => t.url),
          g.cancelled.map (fun t => t.url), []⟩
      else
        let expected := g.excs.filter isExpectedExc
        let unexpected := g.excs.filter (fun e => !isExpectedExc e)
        ⟨none,
          if unexpected.isEmpty then .ok ()
          else .error (.exceptionGroup unexpected),
          g.completed.map (fun t => t.url),
          g.cancelled.map (fun t => t.url),
          expected⟩

/-- Model of `download_album(url, prefer_flac, output_directory, "directory")` with
the `DirectoryOutput` sink, against environment `env`. A `ClientError`
fetching the tracklist is caught, logged and swallowed (`return`); a
missing album name likewise returns normally; `get_track_count` is
advisory only through its `except ValueError` — any other exception it
raises (in particular the `AttributeError` for a missing info paragraph)
escapes `download_album` before the sink is created. -/
def download_album (url : String) (prefer_flac : Bool) (env : AlbumEnv) :
    AlbumRunResult :=
  match env.albumFetch with
  | .error (.clientError _) => ⟨none, .ok (), [], [], []⟩
  | .error e => ⟨none, .error e, [], [], []⟩
  | .ok doc =>
    match doc.h2 with
    | none => ⟨none, .ok (), [], [], []⟩
    | some _ =>
      match get_track_count doc.infoParagraph with
      | .error (.valueError _) => download_album_with_sink url prefer_flac env doc
      | .error e => ⟨none, .error e, [], [], []⟩
      | .ok _ => download_album_with_sink url prefer_flac env doc

/-- Result of one `download_albums` run: each album's result, in request
order, and the batch outcome. -/
structure BatchResult where
  albums : List AlbumRunResult
  result : Except PyExc Unit

/-- The exception one album run contributed to `asyncio.gather`'s result
list, if any (the `isinstance(x, BaseException)` filter). -/
def resultErr (r : AlbumRunResult) : Option PyExc :=
  match r.result with
  | .error e => some e
  | .ok _ => none

/-- Model of `download_albums(urls, ...)`: `asyncio.gather` with
`return_exceptions=True` runs every album to completion regardless of the
others' failures; the exceptions that escaped `download_album` are
collected in order and re-raised as one `BaseExceptionGroup` iff any
exist. -/
def download_albums (urls : List String) (prefer_flac : Bool)
    (env : String → AlbumEnv) : BatchResult :=
  let results := urls.map (fun u => download_album u prefer_flac (env u))
  let excs := results.filterMap resultErr
  ⟨results,
    if excs.isEmpty then .ok ()
    else .error (.exceptionGroup excs)⟩

/-- Whether the advisory `get_track_count` step lets the album proceed:
it does on success and on the `ValueError` its caller catches; any other
exception escapes `download_album`. -/
def advisoryOkB (doc : AlbumDoc) : Bool :=
  match get_track_count doc.infoParagraph with
  | .ok _ => true
  | .error (.valueError _) => true
  | .error _ => false

/-- Whether an album run ends in full success: tracklist fetched, album
name present, the advisory count step survivable, a non-empty tracklist
whose rows all carry an anchor, and no track task failing. -/
def fullSuccessB (url : String) (prefer_flac : Bool) (env : AlbumEnv) : Bool :=
  match env.albumFetch with
  | .error _ => false
  | .ok doc =>
    doc.h2.isSome && advisoryOkB doc && !doc.trackRows.isEmpty &&
      (match allTrackUrls url doc.trackRows with
      | .error _ => false
      | .ok urls => (firstFailTime (mkTasks prefer_flac env urls)).isNone)

/-- The complete file set of an album run in which every track pipeline
succeeds. -/
def albumFiles (url : String) (prefer_flac : Bool) (env : AlbumEnv) :
    List (String × List Nat) :=
  match env.albumFetch with
  | .error _ => []
  | .ok doc =>
    match allTrackUrls url doc.trackRows with
    | .error _ => []
    | .ok urls => (mkTasks prefer_flac env urls).filterMap (fun t => t.run.file)

/-! ## Lemmas about the audio-link dictionary -/

/-- Fallback choice, used to state the fold invariant of the dict
comprehension. -/
def oGet (a b : Option String) : Option String :=
  match a with
  | some v => some v
  | none => b

theorem dictGet_insert_self (m : List (String × String)) (k v : String) :
    dictGet (dictInsert m k v) k = some v := by
  induction m with
  | nil => simp [dictInsert, dictGet]
  | cons p rest ih =>
    obtain ⟨k0, v0⟩ := p
    by_cases h : k0 = k
    · subst h
      simp [dictInsert, dictGet]
    · simp [dictInsert, dictGet, h, ih]

theorem dictGet_insert_ne (m : List (String × String)) (k v e : String)
    (h : k ≠ e) : dictGet (dictInsert m k v) e = dictGet m e := by
  induction m with
  | nil => simp [dictInsert, dictGet, h]
  | cons p rest ih =>
    obtain ⟨k0, v0⟩ := p
    by_cases hk : k0 = k
    · subst hk
      simp [dictInsert, dictGet, h]
    · simp [dictInsert, dictGet, hk, ih]

theorem keys_insert (m : List (String × String)) (k v : String) :
    (dictInsert m k v).map Prod.fst =
      if k ∈ m.map Prod.fst then m.map Prod.fst
      else m.map Prod.fst ++ [k] := by
  induction m with
  | nil => simp [dictInsert]
  | cons p rest ih =>
    obtain ⟨k0, v0⟩ := p
    by_cases hk : k0 = k
    · subst hk
      simp [dictInsert]
    · by_cases hmem : k ∈ rest.map Prod.fst
      · simp [dictInsert, hk, hmem, ih, Ne.symm hk]
      · simp [dictInsert, hk, hmem, ih, Ne.symm hk]

theorem keys_insert_nodup (m : List (String × String)) (k v : String)
    (h : (m.map Prod.fst).Nodup) :
    ((dictInsert m k v).map Prod.fst).Nodup := by
  rw [keys_insert]
  by_cases hmem : k ∈ m.map Prod.fst
  · simpa [hmem] using h
  · simp [hmem, List.nodup_append, h]

theorem getLast?_cons_some (z : String) (zs : List String) :
    ∃ w, (z :: zs).getLast? = some w := by
  induction zs generalizing z with
  | nil => exact ⟨z, rfl⟩
  | cons a l ih =>
    rw [List.getLast?_cons_cons]
    exact ih a

/-- Fold invariant of the dict comprehension: on success, looking up an
extension returns the LAST candidate href carrying that extension
(extension taken verbatim from the href), falling back to the initial
accumulator. -/
theorem foldl_audio_ok_getLast (hrefs : List String) :
    ∀ m0 m : List (String × String),
    List.foldlM audioLinkStep m0 hrefs = .ok m →
    ∀ e : String,
      dictGet m e =
        oGet ((hrefs.filter (fun y => extAfterLastDot y == some e)).getLast?)
          (dictGet m0 e) := by
  induction hrefs with
  | nil =>
    intro m0 m h e
    simp only [List.foldlM_nil] at h
    cases h
    simp [oGet]
  | cons y rest ih =>
    intro m0 m h e
    rw [List.foldlM_cons] at h
    cases hext : extAfterLastDot y with
    | none => simp [audioLinkStep, hext, Bind.bind, Except.bind] at h
    | some ext =>
      simp only [audioLinkStep, hext, Bind.bind, Except.bind] at h
      have ihh := ih (dictInsert m0 ext y) m h e
      by_cases hpe : ext = e
      · subst hpe
        rw [List.filter_cons_of_pos (by simp [hext])]
        cases hfl : rest.filter (fun y => extAfterLastDot y == some ext) with
        | nil =>
          rw [hfl] at ihh
          simp only [List.getLast?_nil, oGet] at ihh
          rw [dictGet_insert_self] at ihh
          simpa [oGet] using ihh
        | cons z zs =>
          rw [hfl] at ihh
          obtain ⟨w, hw⟩ := getLast?_cons_some z zs
          rw [List.getLast?_cons_cons, hw]
          rw [hw] at ihh
          simpa [oGet] using ihh
      · rw [List.filter_cons_of_neg (by simp [hext, hpe])]
        rw [dictGet_insert_ne m0 ext y e hpe] at ihh
        exact ihh

/-- The dict comprehension keeps its keys without duplicates. -/
theorem foldl_audio_keys_nodup (hrefs : List String) :
    ∀ m0 m : List (String × String),
    (m0.map Prod.fst).Nodup →
    List.foldlM audioLinkStep m0 hrefs = .ok m →
    (m.map Prod.fst).Nodup := by
  induction hrefs with
  | nil =>
    intro m0 m h0 h
    simp only [List.foldlM_nil] at h
    cases h
    exact h0
  | cons y rest ih =>
    intro m0 m h0 h
    rw [List.foldlM_cons] at h
    cases hext : extAfterLastDot y with
    | none => simp [audioLinkStep, hext, Bind.bind, Except.bind] at h
    | some ext =>
      simp only [audioLinkStep, hext, Bind.bind, Except.bind] at h
      exact ih (dictInsert m0 ext y) m (keys_insert_nodup m0 ext y h0) h

/-- A candidate href without a `.` makes the dict comprehension raise
`ValueError` regardless of what else is in the candidate list. -/
theorem foldl_audio_dotless (hrefs : List String) :
    ∀ m0 : List (String × String),
    (∃ y ∈ hrefs, extAfterLastDot y = none) →
    List.foldlM audioLinkStep m0 hrefs =
      .error (.valueError "substring not found") := by
  induction hrefs with
  | nil =>
    intro m0 h
    simp at h
  | cons z rest ih =>
    intro m0 h
    obtain ⟨y, hy, hnone⟩ := h
    rw [List.foldlM_cons]
    cases hz : extAfterLastDot z with
    | none => simp [audioLinkStep, hz, Bind.bind, Except.bind]
    | some ext =>
      simp only [audioLinkStep, hz, Bind.bind, Except.bind]
      apply ih
      rcases List.mem_cons.mp hy with rfl | hmem
      · rw [hz] at hnone
        cases hnone
      · exact ⟨y, hmem, hnone⟩

theorem oGet_none_right (a : Option String) : oGet a none = a := by
  cases a <;> rfl

/-- Evaluation of `get_song_link` once the candidate dict is built. -/
theorem get_song_link_eq (hrefs : List String) (pf : Bool)
    (m : List (String × String)) (hm : buildAudioLinks hrefs = .ok m) :
    get_song_link hrefs pf =
      (match pf, dictGet m "flac" with
      | true, some l => .ok l
      | _, _ =>
        match dictGet m "mp3" with
        | some l => .ok l
        | none => Except.error (.valueError "No song links found in page.")) := by
  unfold get_song_link
  rw [hm]
  rfl

/-! ## C5: audio-link preference -/

/-- C5 (confirmed). For every track download document whose candidate dict
builds successfully: with `prefer_flac` set and a flac entry present,
`get_song_link` returns the flac entry; otherwise (preference off, or no
flac entry) it returns the mp3 entry when one exists; and when neither a
flac nor an mp3 entry is present it fails with the
`ValueError("No song links found in page.")` that `process_download_page`
surfaces as the per-track no-link failure — whatever other unrelated
extensions the dict contains. -/
theorem song_link_preference (hrefs : List String) (pf : Bool)
    (m : List (String × String)) (hm : buildAudioLinks hrefs = .ok m) :
    (∀ l, pf = true → dictGet m "flac" = some l →
      get_song_link hrefs pf = .ok l) ∧
    (∀ l, (pf = false ∨ dictGet m "flac" = none) → dictGet m "mp3" = some l →
      get_song_link hrefs pf = .ok l) ∧
    (dictGet m "flac" = none → dictGet m "mp3" = none →
      get_song_link hrefs pf =
        .error (.valueError "No song links found in page.")) := by
  have he := get_song_link_eq hrefs pf m hm
  refine ⟨?_, ?_, ?_⟩
  · intro l hpf hf
    subst hpf
    rw [he, hf]
  · intro l hor hmp3
    rcases hor with rfl | hf
    · rw [he, hmp3]
    · rw [he, hf, hmp3]
      cases pf <;> rfl
  · intro hf hmp3
    rw [he, hf, hmp3]
    cases pf <;> rfl

/-- C5 witness: a document offering both `x.flac` and `y.mp3` with the
lossless preference set yields the flac link. -/
theorem song_link_preference_witness :
    get_song_link ["x.flac", "y.mp3"] true = .ok "x.flac" :=
  (song_link_preference ["x.flac", "y.mp3"] true
    [("flac", "x.flac"), ("mp3", "y.mp3")] rfl).1 "x.flac" rfl rfl

/-! ## C6: AudioLinkSet construction -/

/-- C6 counterexample. The claim says the mapping keys each link by its
LOWERCASE extension and maps it to the ABSOLUTE resolved URL. On the
candidate href `"a/song.FLAC"` found on page `"http://e.com/t/1"`, the
code keys it by the verbatim `"FLAC"` (a lookup of `"flac"` misses) and
stores the raw relative href, not
`urljoin "http://e.com/t/1" "a/song.FLAC" = "http://e.com/t/a/song.FLAC"`. -/
theorem audio_links_raw_counterexample :
    buildAudioLinks ["a/song.FLAC"] = .ok [("FLAC", "a/song.FLAC")] ∧
    dictGet [("FLAC", "a/song.FLAC")] "flac" = none ∧
    urljoin "http://e.com/t/1" "a/song.FLAC" = "http://e.com/t/a/song.FLAC" ∧
    ("FLAC" : String) ≠ "flac" ∧
    ("a/song.FLAC" : String) ≠ "http://e.com/t/a/song.FLAC" := by
  refine ⟨rfl, rfl, rfl, by decide, by decide⟩

/-- C6 amended: the candidate mapping keys each link by the substring
after the last `.` of the href exactly as it appears (case preserved, no
lowercasing) and maps it to the raw href (relative-to-absolute resolution
happens only after selection, in `process_download_page`); per extension
at most one href is kept and the last occurrence wins. -/
theorem audio_links_invariant (hrefs : List String) (m : List (String × String))
    (hm : buildAudioLinks hrefs = .ok m) :
    (∀ e : String,
      dictGet m e =
        (hrefs.filter (fun y => extAfterLastDot y == some e)).getLast?) ∧
    (m.map Prod.fst).Nodup := by
  constructor
  · intro e
    have h := foldl_audio_ok_getLast hrefs [] m hm e
    rw [show dictGet [] e = none from rfl, oGet_none_right] at h
    exact h
  · exact foldl_audio_keys_nodup hrefs [] m (by simp) hm

/-- C6 amended witness: of two `.mp3` candidates the later one wins, and
the kept key set has no duplicates. -/
theorem audio_links_invariant_witness :
    dictGet [("mp3", "y.mp3")] "mp3" =
      ((["x.mp3", "y.mp3"].filter
        (fun y => extAfterLastDot y == some "mp3")).getLast?) ∧
    ([("mp3", "y.mp3")].map Prod.fst).Nodup := by
  have h := audio_links_invariant ["x.mp3", "y.mp3"] [("mp3", "y.mp3")] rfl
  exact ⟨h.1 "mp3", h.2⟩

/-! ## C10: a dotless candidate href fails the whole track -/

/-- C10 (confirmed). If any candidate song-download href contains no `.`,
building the extension dict raises `ValueError` from `rindex` before any
preference logic runs, so `process_download_page` fails the whole track
with the wrapped no-link-found `KHOutsiderError` — independent of
`prefer_flac` and even when a usable mp3 or flac candidate is present in
the same document — and downloads no file. -/
theorem dotless_href_fails_track (url : String) (pf : Bool) (env : TrackEnv)
    (hrefs : List String) (hp : env.pageFetch = .ok hrefs)
    (hbad : ∃ y ∈ hrefs, extAfterLastDot y = none) :
    process_download_page url env pf =
      ⟨none, .error (.khOutsiderError ("Could not find song links on " ++ url))⟩ := by
  have hb : buildAudioLinks hrefs = .error (.valueError "substring not found") :=
    foldl_audio_dotless hrefs [] hbad
  have hg : get_song_link hrefs pf = .error (.valueError "substring not found") := by
    unfold get_song_link
    rw [hb]
    rfl
  simp only [process_download_page, hp]
  rw [hg]

/-- A track page offering a good mp3 link next to a dotless href. -/
def dotlessTrackEnv : TrackEnv :=
  ⟨.ok ["good.mp3", "nodot"], fun _ => ⟨none, []⟩, none, 0⟩

/-- C10 witness: with candidates `["good.mp3", "nodot"]` the track fails
as a no-link-found error despite the usable mp3 link. -/
theorem dotless_href_fails_track_witness :
    process_download_page "http://e.com/t1.html" dotlessTrackEnv false =
      ⟨none, .error (.khOutsiderError
        ("Could not find song links on " ++ "http://e.com/t1.html"))⟩ :=
  dotless_href_fails_track "http://e.com/t1.html" false dotlessTrackEnv
    ["good.mp3", "nodot"] rfl ⟨"nodot", by simp, rfl⟩

/-! ## C7: track-link selection from a multi-anchor row -/

/-- C7 counterexample. The claim says the extracted track-page link is the
lexicographically smallest href of the row's anchors. On the row with
anchors `["b.html", "a.html"]` the code takes `row.find("a")` — the FIRST
anchor in document order — and yields `b.html`, although
`"a.html" < "b.html"`. -/
theorem first_anchor_counterexample :
    trackUrlOfRow "http://e.com/album" ⟨["b.html", "a.html"]⟩ =
      .ok "http://e.com/b.html" ∧
    ("a.html" : String) < "b.html" := by
  refine ⟨rfl, ?_⟩
  rw [String.lt_iff_toList_lt]
  decide

/-- C7 amended: for every tracklist row the extracted track-page link is
the FIRST anchor's href in document order (not the lexicographic
minimum), resolved against the album URL; being a pure function of the
document, the selection is deterministic. -/
theorem track_links_first_anchor (url : String) (rows : List TrackRow)
    (h : ∀ r ∈ rows, r.anchors ≠ []) :
    allTrackUrls url rows =
      .ok (rows.map (fun r => urljoin url (r.anchors.headD ""))) := by
  induction rows with
  | nil => rfl
  | cons r rest ih =>
    have hr : r.anchors ≠ [] := h r (by simp)
    obtain ⟨a, as, ha⟩ : ∃ a as, r.anchors = a :: as := by
      cases hc : r.anchors with
      | nil => exact absurd hc hr
      | cons a as => exact ⟨a, as, rfl⟩
    have ihh := ih (fun x hx => h x (by simp [hx]))
    simp [allTrackUrls, trackUrlOfRow, ha, ihh, Bind.bind, Except.bind]
    rfl

/-- C7 amended witness: of the rows `[["b.html", "a.html"], ["c.html"]]`
the first anchors are chosen, in order. -/
theorem track_links_first_anchor_witness :
    allTrackUrls "http://e.com/album" [⟨["b.html", "a.html"]⟩, ⟨["c.html"]⟩] =
      .ok ["http://e.com/b.html", "http://e.com/c.html"] := by
  rw [track_links_first_anchor "http://e.com/album"
    [⟨["b.html", "a.html"]⟩, ⟨["c.html"]⟩] (by decide)]
  rfl

/-! ## C8: download_file handle closing and partial files -/

/-- C8 counterexample. The claim says that on a mid-stream failure the
partially written file is deleted before the error propagates. Streaming
`track.mp3` where the second chunk fails leaves the file present with the
first chunk still written — `download_file` has no deletion path. -/
theorem partial_file_left_counterexample :
    download_file "http://e.com/s/track.mp3"
      ⟨none, [.ok 1, .error (.clientError "connection reset")]⟩ none =
      ⟨some ("track.mp3", [1]), true, .error (.clientError "connection reset")⟩ := by
  rfl

theorem streamChunks_stops_at_error (written : List Nat) (e : PyExc)
    (rest : List (Except PyExc Nat)) :
    streamChunks (written.map Except.ok ++ .error e :: rest) =
      (written, .error e) := by
  induction written with
  | nil => rfl
  | cons c cs ih => simp [streamChunks, ih]

/-- C8 amended: the write handle is closed on every exit path of
`download_file`, and on any failure while streaming the body the
partially written file — holding exactly the chunks received before the
failure — is left in the sink (it is not deleted; only the album-level
directory cleanup removes it) while the error propagates. -/
theorem download_file_closes_handle (url : String) (hdr : Option String)
    (written : List Nat) (e : PyExc) (rest : List (Except PyExc Nat)) (fn : String)
    (hfn : filenameOf url ⟨hdr, written.map Except.ok ++ .error e :: rest⟩ = .ok fn) :
    (∀ (resp : Response) (oe : Option PyExc),
      (download_file url resp oe).handleClosed = true) ∧
    download_file url ⟨hdr, written.map Except.ok ++ .error e :: rest⟩ none =
      ⟨some (fn, written), true, .error e⟩ := by
  constructor
  · intro resp oe
    cases h : filenameOf url resp with
    | error e' => simp [download_file, h]
    | ok fn' => cases oe <;> simp [download_file, h]
  · simp [download_file, hfn, streamChunks_stops_at_error]

/-- C8 amended witness: the concrete failing stream of the counterexample
keeps its one-chunk file, with the handle closed and the error
propagated. -/
theorem download_file_closes_handle_witness :
    (download_file "http://e.com/s/other.mp3"
      ⟨none, [.ok 7, .error (.osError "disk full")]⟩ none).handleClosed = true ∧
    download_file "http://e.com/s/other.mp3"
      ⟨none, [.ok 7, .error (.osError "disk full")]⟩ none =
      ⟨some ("other.mp3", [7]), true, .error (.osError "disk full")⟩ := by
  have h := download_file_closes_handle "http://e.com/s/other.mp3" none
    [7] (.osError "disk full") [] "other.mp3" rfl
  exact ⟨h.1 _ none, h.2⟩

/-! ## C9: track-count extraction -/

/-- A healthy one-track environment used to exercise `get_track_count`
failures inside `download_album`. -/
def countTrackEnv : TrackEnv :=
  ⟨.ok ["s.mp3"], fun _ => ⟨none, [.ok 1]⟩, none, 0⟩

/-- An album whose document has NO `p[@align='left']` info paragraph but
is otherwise fully downloadable. -/
def noParagraphEnv : AlbumEnv :=
  ⟨.ok ⟨some "Album", none, [⟨["t1.html"]⟩]⟩, fun _ => countTrackEnv⟩

/-- The same album with an info paragraph that lacks a
"Number of Files" line. -/
def noCountLineEnv : AlbumEnv :=
  ⟨.ok ⟨some "Album", some "x", [⟨["t1.html"]⟩]⟩, fun _ => countTrackEnv⟩

/-- C9 (code bug). When the info paragraph is absent, `find` returns
`None` and `.text_content()` raises `AttributeError` — not the intended
`ValueError("No info paragraph found in page.")`, whose `except
IndexError` guard never fires. The `AttributeError` escapes the caller's
advisory `except ValueError`, so the otherwise fully downloadable album
aborts with it: nothing is attempted and no output is created — contrary
to the claim (and to the code's own error message) that a missing
paragraph is an advisory `InfoNotFound`. The `CountNotFound` half behaves
as claimed: a paragraph without a "Number of Files" line raises
`ValueError`, is caught, and the album proceeds to full commit. -/
theorem missing_info_paragraph_aborts_album :
    get_track_count none =
      .error (.attributeError "NoneType object has no attribute text_content") ∧
    (download_album "http://e.com/album" false noParagraphEnv).result =
      .error (.attributeError "NoneType object has no attribute text_content") ∧
    (download_album "http://e.com/album" false noParagraphEnv).dir = none ∧
    (download_album "http://e.com/album" false noParagraphEnv).completed = [] ∧
    get_track_count (some "x") =
      .error (.valueError "Info Paragraph did not contain number of files.") ∧
    (download_album "http://e.com/album" false noCountLineEnv).dir =
      some [("s.mp3", [1])] ∧
    (download_album "http://e.com/album" false noCountLineEnv).result = .ok () := by
  exact ⟨rfl, rfl, rfl, rfl, rfl, rfl, rfl⟩

/-! ## Lemmas about the task-group join and album reduction -/

theorem runTaskGroup_ok (ts : List TaskSpec) (h : firstFailTime ts = none) :
    runTaskGroup ts = ⟨ts, [], ts.filterMap (fun t => t.run.file), []⟩ := by
  unfold runTaskGroup
  rw [h]

theorem runTaskGroup_fail (ts : List TaskSpec) (t0 : Nat)
    (h : firstFailTime ts = some t0) :
    runTaskGroup ts =
      ⟨ts.filter (fun t => decide (t.time ≤ t0)),
        ts.filter (fun t => decide (t0 < t.time)),
        (ts.filter (fun t => decide (t.time ≤ t0))).filterMap (fun t => t.run.file),
        (ts.filter (fun t => decide (t.time ≤ t0))).filterMap (fun t =>
          match t.run.result with
          | .error e => some e
          | .ok _ => none)⟩ := by
  unfold runTaskGroup
  rw [h]

theorem firstFailTime_mem (ts : List TaskSpec) (t0 : Nat)
    (h : firstFailTime ts = some t0) :
    ∃ t ∈ ts, isFail t.run.result = true ∧ t.time = t0 := by
  unfold firstFailTime at h
  have hmem := List.min?_mem (fun a b => min_choice a b) h
  obtain ⟨t, ht, hf⟩ := List.mem_filterMap.mp hmem
  by_cases hb : isFail t.run.result = true
  · rw [if_pos hb] at hf
    exact ⟨t, ht, hb, Option.some.inj hf⟩
  · rw [if_neg hb] at hf
    cases hf

theorem runTaskGroup_excs_ne (ts : List TaskSpec) (t0 : Nat)
    (h : firstFailTime ts = some t0) :
    (runTaskGroup ts).excs.isEmpty = false := by
  obtain ⟨t, ht, hfail, htime⟩ := firstFailTime_mem ts t0 h
  rw [runTaskGroup_fail ts t0 h]
  have hc : t ∈ ts.filter (fun t => decide (t.time ≤ t0)) :=
    List.mem_filter.mpr ⟨ht, by simp [htime]⟩
  cases hr : t.run.result with
  | ok u => simp [isFail, hr] at hfail
  | error e =>
    have he : e ∈ (ts.filter (fun t => decide (t.time ≤ t0))).filterMap
        (fun t =>
          match t.run.result with
          | .error e => some e
          | .ok _ => none) :=
      List.mem_filterMap.mpr ⟨t, hc, by rw [hr]⟩
    cases hl : (ts.filter (fun t => decide (t.time ≤ t0))).filterMap
        (fun t =>
          match t.run.result with
          | .error e => some e
          | .ok _ => none) with
    | nil =>
      rw [hl] at he
      cases he
    | cons a l => rfl

theorem download_album_eq_with_sink (url : String) (pf : Bool) (env : AlbumEnv)
    (doc : AlbumDoc) (nm : String) (h1 : env.albumFetch = .ok doc)
    (h2 : doc.h2 = some nm) (h3 : advisoryOkB doc = true) :
    download_album url pf env = download_album_with_sink url pf env doc := by
  cases hg : get_track_count doc.infoParagraph with
  | ok n => simp [download_album, h1, h2, hg]
  | error e =>
    cases e with
    | valueError m => simp [download_album, h1, h2, hg]
    | clientError m => simp [advisoryOkB, hg] at h3
    | khOutsiderError m => simp [advisoryOkB, hg] at h3
    | attributeError m => simp [advisoryOkB, hg] at h3
    | indexError m => simp [advisoryOkB, hg] at h3
    | osError m => simp [advisoryOkB, hg] at h3
    | exceptionGroup es => simp [advisoryOkB, hg] at h3

/-! ## C2: album atomicity (directory sink) -/

/-- C2 (confirmed, `DirectoryOutput` sink). Every `download_album` run
ends in exactly one of two states: when the run fully succeeds (tracklist
fetched, album name found, advisory count survivable, non-empty tracklist,
every track pipeline succeeding) the album directory is committed holding
every track's file; in every other case — link-extraction failure, any
track-pipeline failure, or an earlier abort — the album directory is
absent at the end (`DirectoryOutput.__aexit__` removes it whenever the
body raised, and it is never created before the sink opens), so a failed
album leaves zero files, never a partial result. -/
theorem album_atomicity (url : String) (pf : Bool) (env : AlbumEnv) :
    (fullSuccessB url pf env = true →
      (download_album url pf env).dir = some (albumFiles url pf env) ∧
      (download_album url pf env).result = .ok ()) ∧
    (fullSuccessB url pf env = false →
      (download_album url pf env).dir = none) := by
  constructor
  · intro h
    cases hf : env.albumFetch with
    | error e =>
      simp only [fullSuccessB, hf] at h
      cases h
    | ok doc =>
      simp only [fullSuccessB, hf, Bool.and_eq_true] at h
      obtain ⟨⟨⟨hsome, hadv⟩, hrows⟩, hrest⟩ := h
      obtain ⟨nm, hnm⟩ := Option.isSome_iff_exists.mp hsome
      cases hu : allTrackUrls url doc.trackRows with
      | error e =>
        rw [hu] at hrest
        cases hrest
      | ok urls =>
        rw [hu] at hrest
        have hft : firstFailTime (mkTasks pf env urls) = none := by
          simpa using hrest
        have hre : doc.trackRows.isEmpty = false := by
          simpa using hrows
        rw [download_album_eq_with_sink url pf env doc nm hf hnm hadv]
        simp only [download_album_with_sink, hre, hu,
          runTaskGroup_ok (mkTasks pf env urls) hft]
        simp [albumFiles, hf, hu]
  · intro h
    cases hf : env.albumFetch with
    | error e =>
      cases e <;> simp [download_album, hf]
    | ok doc =>
      cases hnm : doc.h2 with
      | none => simp [download_album, hf, hnm]
      | some nm =>
        have proceed : advisoryOkB doc = true →
            (download_album_with_sink url pf env doc).dir = none := by
          intro hadv
          by_cases hre : doc.trackRows.isEmpty
          · simp [download_album_with_sink, hre]
          · have hre' : doc.trackRows.isEmpty = false := by
              simpa using hre
            cases hu : allTrackUrls url doc.trackRows with
            | error e' => simp [download_album_with_sink, hre', hu]
            | ok urls =>
              have hX : (firstFailTime (mkTasks pf env urls)).isNone = false := by
                simp only [fullSuccessB, hf, hnm, hadv, hre', hu] at h
                simpa using h
              obtain ⟨t0, hft⟩ :
                  ∃ t0, firstFailTime (mkTasks pf env urls) = some t0 := by
                cases hc : firstFailTime (mkTasks pf env urls) with
                | none =>
                  rw [hc] at hX
                  cases hX
                | some t0 => exact ⟨t0, rfl⟩
              have hne := runTaskGroup_excs_ne (mkTasks pf env urls) t0 hft
              simp only [download_album_with_sink, hre', hu, hne]
              simp
        cases hg : get_track_count doc.infoParagraph with
        | ok n =>
          rw [download_album_eq_with_sink url pf env doc nm hf hnm
            (by simp [advisoryOkB, hg])]
          exact proceed (by simp [advisoryOkB, hg])
        | error e =>
          cases e with
          | valueError m =>
            rw [download_album_eq_with_sink url pf env doc nm hf hnm
              (by simp [advisoryOkB, hg])]
            exact proceed (by simp [advisoryOkB, hg])
          | clientError m => simp [download_album, hf, hnm, hg]
          | khOutsiderError m => simp [download_album, hf, hnm, hg]
          | attributeError m => simp [download_album, hf, hnm, hg]
          | indexError m => simp [download_album, hf, hnm, hg]
          | osError m => simp [download_album, hf, hnm, hg]
          | exceptionGroup es => simp [download_album, hf, hnm, hg]

/-- A fully succeeding one-track album. -/
def successEnv : AlbumEnv :=
  ⟨.ok ⟨some "Album", some "Number of Files: 1", [⟨["t1.html"]⟩]⟩,
    fun _ => countTrackEnv⟩

/-- The P5 scenario: five tracks, track 3 failing with the no-link error,
every other track succeeding. -/
def p5TrackEnv (u : String) : TrackEnv :=
  if u = "http://e.com/t3.html" then ⟨.ok [], fun _ => ⟨none, []⟩, none, 0⟩
  else ⟨.ok ["s.mp3"], fun _ => ⟨none, [.ok 1]⟩, none, 0⟩

/-- The P5 album: five tracks of which track 3 fails. -/
def p5Env : AlbumEnv :=
  ⟨.ok ⟨some "Album", some "Number of Files: 5",
    [⟨["t1.html"]⟩, ⟨["t2.html"]⟩, ⟨["t3.html"]⟩, ⟨["t4.html"]⟩, ⟨["t5.html"]⟩]⟩,
    p5TrackEnv⟩

/-- C2 witness: the fully succeeding album commits its complete file set,
and the P5 album — track 3 failing, four tracks succeeding — ends with
the directory absent, not with a partial four-file result. -/
theorem album_atomicity_witness :
    fullSuccessB "http://e.com/album" false successEnv = true ∧
    (download_album "http://e.com/album" false successEnv).dir =
      some [("s.mp3", [1])] ∧
    (download_album "http://e.com/album" false successEnv).result = .ok () ∧
    fullSuccessB "http://e.com/album" false p5Env = false ∧
    (download_album "http://e.com/album" false p5Env).dir = none := by
  have hs := (album_atomicity "http://e.com/album" false successEnv).1 rfl
  have hp := (album_atomicity "http://e.com/album" false p5Env).2 rfl
  exact ⟨rfl, by rw [hs.1]; rfl, hs.2, rfl, hp⟩

/-- Field equations of `download_album_with_sink` once the non-empty
tracklist resolved its track URLs: the tasks are joined by the
`TaskGroup`, the expected failures are the logged ones, and the
unexpected remainder is re-raised iff it is non-empty. -/
theorem with_sink_fields (url : String) (pf : Bool) (env : AlbumEnv)
    (doc : AlbumDoc) (urls : List String)
    (h4 : doc.trackRows.isEmpty = false)
    (h5 : allTrackUrls url doc.trackRows = .ok urls) :
    (download_album_with_sink url pf env doc).completed =
      (runTaskGroup (mkTasks pf env urls)).completed.map (fun t => t.url) ∧
    (download_album_with_sink url pf env doc).cancelled =
      (runTaskGroup (mkTasks pf env urls)).cancelled.map (fun t => t.url) ∧
    (download_album_with_sink url pf env doc).logged =
      (runTaskGroup (mkTasks pf env urls)).excs.filter isExpectedExc ∧
    (download_album_with_sink url pf env doc).result =
      (if ((runTaskGroup (mkTasks pf env urls)).excs.filter
          (fun e => !isExpectedExc e)).isEmpty then Except.ok ()
        else Except.error (.exceptionGroup
          ((runTaskGroup (mkTasks pf env urls)).excs.filter
            (fun e => !isExpectedExc e)))) := by
  cases hl : (runTaskGroup (mkTasks pf env urls)).excs with
  | nil => simp [download_album_with_sink, h4, h5, hl]
  | cons a l => simp [download_album_with_sink, h4, h5, hl]

/-! ## C1: sibling-track behaviour under a failure -/

/-- Three tracks: track 1 fails immediately (no links on its page) while
tracks 2 and 3 would succeed but only finish later. -/
def slowSiblingsTrackEnv (u : String) : TrackEnv :=
  if u = "http://e.com/t1.html" then ⟨.ok [], fun _ => ⟨none, []⟩, none, 0⟩
  else ⟨.ok ["s.mp3"], fun _ => ⟨none, [.ok 1]⟩, none, 5⟩

/-- The three-track album of the sibling-cancellation scenario. -/
def slowSiblingsEnv : AlbumEnv :=
  ⟨.ok ⟨some "Album", some "Number of Files: 3",
    [⟨["t1.html"]⟩, ⟨["t2.html"]⟩, ⟨["t3.html"]⟩]⟩,
    slowSiblingsTrackEnv⟩

/-- C1 counterexample. With three tracks where track 1 raises the no-link
error first, the `asyncio.TaskGroup` used for the track fan-out cancels
the still-running tracks 2 and 3: only track 1's outcome is recorded, the
siblings are NOT attempted to completion — contradicting the claimed
failure-tolerant join. -/
theorem sibling_cancelled_counterexample :
    (download_album "http://e.com/album" false slowSiblingsEnv).completed =
      ["http://e.com/t1.html"] ∧
    (download_album "http://e.com/album" false slowSiblingsEnv).cancelled =
      ["http://e.com/t2.html", "http://e.com/t3.html"] ∧
    (download_album "http://e.com/album" false slowSiblingsEnv).logged =
      [.khOutsiderError "Could not find song links on http://e.com/t1.html"] := by
  exact ⟨rfl, rfl, rfl⟩

/-- C1 amended: the track fan-out uses `asyncio.TaskGroup`, whose join is
fail-fast — when some track pipeline fails, exactly the sibling pipelines
already finished at the first failure time record their outcomes, and
every sibling still running is cancelled. -/
theorem album_taskgroup_fail_fast (url : String) (pf : Bool) (env : AlbumEnv)
    (doc : AlbumDoc) (nm : String) (urls : List String) (t0 : Nat)
    (h1 : env.albumFetch = .ok doc) (h2 : doc.h2 = some nm)
    (h3 : advisoryOkB doc = true) (h4 : doc.trackRows.isEmpty = false)
    (h5 : allTrackUrls url doc.trackRows = .ok urls)
    (h6 : firstFailTime (mkTasks pf env urls) = some t0) :
    (download_album url pf env).completed =
      ((mkTasks pf env urls).filter (fun t => decide (t.time ≤ t0))).map
        (fun t => t.url) ∧
    (download_album url pf env).cancelled =
      ((mkTasks pf env urls).filter (fun t => decide (t0 < t.time))).map
        (fun t => t.url) := by
  rw [download_album_eq_with_sink url pf env doc nm h1 h2 h3]
  obtain ⟨hc, hx, -, -⟩ := with_sink_fields url pf env doc urls h4 h5
  rw [hc, hx, runTaskGroup_fail (mkTasks pf env urls) t0 h6]
  exact ⟨rfl, rfl⟩

/-- C1 amended witness: in the three-track scenario the task finishing at
the failure time is recorded and the two later ones are cancelled. -/
theorem album_taskgroup_fail_fast_witness :
    (download_album "http://e.com/album" false slowSiblingsEnv).completed =
      ((mkTasks false slowSiblingsEnv
        ["http://e.com/t1.html", "http://e.com/t2.html", "http://e.com/t3.html"]).filter
          (fun t => decide (t.time ≤ 0))).map (fun t => t.url) ∧
    (download_album "http://e.com/album" false slowSiblingsEnv).cancelled =
      ((mkTasks false slowSiblingsEnv
        ["http://e.com/t1.html", "http://e.com/t2.html", "http://e.com/t3.html"]).filter
          (fun t => decide (0 < t.time))).map (fun t => t.url) :=
  album_taskgroup_fail_fast "http://e.com/album" false slowSiblingsEnv
    ⟨some "Album", some "Number of Files: 3",
      [⟨["t1.html"]⟩, ⟨["t2.html"]⟩, ⟨["t3.html"]⟩]⟩
    "Album"
    ["http://e.com/t1.html", "http://e.com/t2.html", "http://e.com/t3.html"]
    0 rfl rfl rfl rfl rfl rfl

/-! ## C4: failure partition and selective escalation -/

/-- A one-track album whose `output.open` raises `OSError` (a local
write failure). -/
def writeFailTrackEnv : TrackEnv :=
  ⟨.ok ["s.mp3"], fun _ => ⟨none, [.ok 1]⟩, some (.osError "disk full"), 0⟩

/-- The album of the write-failure scenario. -/
def writeFailEnv : AlbumEnv :=
  ⟨.ok ⟨some "Album", some "Number of Files: 1", [⟨["t1.html"]⟩]⟩,
    fun _ => writeFailTrackEnv⟩

/-- C4 counterexample. The claim counts `WriteError` among the expected
kinds that are logged and not re-raised. But the album-level split
matches only `(aiohttp.ClientError, KHOutsiderError)`: a track failing
with a filesystem `OSError` is logged as nothing, classified into the
unexpected remainder, and re-raised. -/
theorem write_error_escalates_counterexample :
    (download_album "http://e.com/album" false writeFailEnv).result =
      .error (.exceptionGroup [.osError "disk full"]) ∧
    (download_album "http://e.com/album" false writeFailEnv).logged = [] := by
  exact ⟨rfl, rfl⟩

/-- C4 amended: the collected track failures are partitioned by the match
class `(aiohttp.ClientError, KHOutsiderError)` — covering transport
errors, per-track no-link failures and the no-tracks failure. Exactly the
failures in that class are logged individually and swallowed; everything
else (filesystem write errors included) is re-raised after logging, as
one group, iff any such failure occurred. -/
theorem album_failure_partition (url : String) (pf : Bool) (env : AlbumEnv)
    (doc : AlbumDoc) (nm : String) (urls : List String)
    (h1 : env.albumFetch = .ok doc) (h2 : doc.h2 = some nm)
    (h3 : advisoryOkB doc = true) (h4 : doc.trackRows.isEmpty = false)
    (h5 : allTrackUrls url doc.trackRows = .ok urls) :
    (download_album url pf env).logged =
      (runTaskGroup (mkTasks pf env urls)).excs.filter isExpectedExc ∧
    (download_album url pf env).result =
      (if ((runTaskGroup (mkTasks pf env urls)).excs.filter
          (fun e => !isExpectedExc e)).isEmpty then Except.ok ()
        else Except.error (.exceptionGroup
          ((runTaskGroup (mkTasks pf env urls)).excs.filter
            (fun e => !isExpectedExc e)))) := by
  rw [download_album_eq_with_sink url pf env doc nm h1 h2 h3]
  obtain ⟨-, -, hlog, hres⟩ := with_sink_fields url pf env doc urls h4 h5
  exact ⟨hlog, hres⟩

/-- Two tracks: track 1 fails with a transport error, track 2 succeeds. -/
def mixedFailTrackEnv (u : String) : TrackEnv :=
  if u = "http://e.com/t1.html" then
    ⟨.error (.clientError "timeout"), fun _ => ⟨none, []⟩, none, 0⟩
  else ⟨.ok ["s.mp3"], fun _ => ⟨none, [.ok 1]⟩, none, 0⟩

/-- The album of the mixed-failure scenario. -/
def mixedFailEnv : AlbumEnv :=
  ⟨.ok ⟨some "Album", some "Number of Files: 2", [⟨["t1.html"]⟩, ⟨["t2.html"]⟩]⟩,
    mixedFailTrackEnv⟩

/-- C4 amended witness: a transport failure among the track outcomes is
logged as expected, and with no unexpected failures nothing is
re-raised. -/
theorem album_failure_partition_witness :
    (download_album "http://e.com/album" false mixedFailEnv).logged =
      (runTaskGroup (mkTasks false mixedFailEnv
        ["http://e.com/t1.html", "http://e.com/t2.html"])).excs.filter
          isExpectedExc ∧
    (download_album "http://e.com/album" false mixedFailEnv).result =
      (if ((runTaskGroup (mkTasks false mixedFailEnv
          ["http://e.com/t1.html", "http://e.com/t2.html"])).excs.filter
            (fun e => !isExpectedExc e)).isEmpty then Except.ok ()
        else Except.error (.exceptionGroup
          ((runTaskGroup (mkTasks false mixedFailEnv
            ["http://e.com/t1.html", "http://e.com/t2.html"])).excs.filter
              (fun e => !isExpectedExc e)))) :=
  album_failure_partition "http://e.com/album" false mixedFailEnv
    ⟨some "Album", some "Number of Files: 2", [⟨["t1.html"]⟩, ⟨["t2.html"]⟩]⟩
    "Album" ["http://e.com/t1.html", "http://e.com/t2.html"]
    rfl rfl rfl rfl rfl

/-! ## C3: batch isolation and the aggregate -/

/-- Batch of two albums: fetching the first album's tracklist fails with
a transport error; the second album downloads fully. -/
def batchEnv (u : String) : AlbumEnv :=
  if u = "http://a.com/x" then
    ⟨.error (.clientError "dns failure"), fun _ => countTrackEnv⟩
  else
    ⟨.ok ⟨some "AlbumB", some "Number of Files: 1", [⟨["t1.html"]⟩]⟩,
      fun _ => countTrackEnv⟩

/-- C3 counterexample. The claim says the batch aggregate contains
exactly the first album's `TransportError` (and is raised, being
non-empty). But `download_album` catches the tracklist-fetch
`ClientError` itself — logging it and returning normally — so in this
scenario the second album is committed AND the batch raises nothing:
its aggregate is empty, not a singleton of the first album's failure. -/
theorem batch_aggregate_counterexample :
    (download_albums ["http://a.com/x", "http://b.com/y"] false batchEnv).result =
      .ok () ∧
    ((download_albums ["http://a.com/x", "http://b.com/y"] false
      batchEnv).albums.map (fun r => r.dir)) = [none, some [("s.mp3", [1])]] := by
  exact ⟨rfl, rfl⟩

/-- C3 amended: the albums run independently — the batch result list is
exactly the per-album runs in request order, so no album's failure
prevents another's completion. The aggregate collects exactly the
exceptions that escape `download_album` (unexpected-failure groups and
escaped errors; expected failures such as a tracklist-fetch transport
error are logged and swallowed inside `download_album` and never reach
it), and it is raised iff it is non-empty. -/
theorem batch_aggregate (urls : List String) (pf : Bool)
    (env : String → AlbumEnv) :
    (download_albums urls pf env).albums =
      urls.map (fun u => download_album u pf (env u)) ∧
    ((download_albums urls pf env).result = .ok () ↔
      ∀ r ∈ (download_albums urls pf env).albums, r.result = .ok ()) ∧
    (∀ es, (download_albums urls pf env).result = .error (.exceptionGroup es) →
      es = (download_albums urls pf env).albums.filterMap resultErr) ∧
    (∀ u m, (env u).albumFetch = .error (.clientError m) →
      (download_album u pf (env u)).result = .ok ()) := by
  have hok : ∀ r : AlbumRunResult, resultErr r = none ↔ r.result = .ok () := by
    intro r
    cases hr : r.result with
    | ok u =>
      cases u
      simp [resultErr, hr]
    | error e => simp [resultErr, hr]
  refine ⟨rfl, ?_, ?_, ?_⟩
  · cases hl : (urls.map (fun u => download_album u pf (env u))).filterMap
        resultErr with
    | nil =>
      have hall := List.filterMap_eq_nil_iff.mp hl
      simp only [download_albums, hl, List.isEmpty_nil, if_true]
      constructor
      · intro _ r hr
        exact (hok r).mp (hall r hr)
      · intro _
        trivial
    | cons a l =>
      simp only [download_albums, hl, List.isEmpty_cons, if_false]
      constructor
      · intro hcontra
        cases hcontra
      · intro hall
        exfalso
        have ha : a ∈ (urls.map (fun u => download_album u pf (env u))).filterMap
            resultErr := by
          rw [hl]
          exact List.mem_cons_self a l
        obtain ⟨r, hr, hre⟩ := List.mem_filterMap.mp ha
        rw [(hok r).mpr (hall r hr)] at hre
        cases hre
  · intro es hes
    cases hl : (urls.map (fun u => download_album u pf (env u))).filterMap
        resultErr with
    | nil =>
      simp only [download_albums, hl, List.isEmpty_nil, if_true] at hes
      cases hes
    | cons a l =>
      simp only [download_albums, hl, List.isEmpty_cons] at hes
      rw [if_neg (by simp)] at hes
      simp only [download_albums, hl]
      exact (PyExc.exceptionGroup.inj (Except.error.inj hes)).symm
  · intro u m hm
    simp [download_album, hm]

/-- C3 amended witness: in the two-album batch the first album's
swallowed transport failure leaves its run with a normal return. -/
theorem batch_aggregate_witness :
    (download_album "http://a.com/x" false (batchEnv "http://a.com/x")).result =
      .ok () :=
  (batch_aggregate ["http://a.com/x", "http://b.com/y"] false batchEnv).2.2.2
    "http://a.com/x" "dns failure" rfl

end KHOutsider
